import Mathlib

/-! Verification of the Sample-Task repository: the bivariate-normal density
visualizer (Question 1) and the from-scratch MNIST multilayer perceptron
(Question 3), shallowly embedded over exact real arithmetic. -/

/-! ## Question 1: the bivariate normal density visualizer -/

/-- A 2×2 real matrix `[[a, b], [c, d]]`, the covariance matrices of the
visualizer. -/
structure Mat2 where
  a : ℝ
  b : ℝ
  c : ℝ
  d : ℝ

/-- The determinant of a 2×2 matrix. -/
def det2 (S : Mat2) : ℝ := S.a * S.d - S.b * S.c

/-- The list of off-diagonal covariance values the visualizer iterates over:
`cov_val = [-0.8, 0, 0.8]`. -/
def cov_val : List ℝ := [-0.8, 0, 0.8]

/-- The covariance matrix the visualizer builds for an off-diagonal value:
`cov = np.array([[1, val], [val, 1]])`. -/
def covMat2 (val : ℝ) : Mat2 := ⟨1, val, val, 1⟩

/-- Modelled from the spec: the notebook's grid loop calls `distr.pdf`, but
`distr` is never defined in the repository's files. Spec §4.1 specifies the
standard closed-form bivariate normal density, "computed via the standard
closed-form exponential-of-quadratic-form expression normalized by
`1/sqrt((2π)^2 |Σ|)`": the quadratic form is `(x-μ)ᵀ Σ⁻¹ (x-μ)`, written out
for a 2×2 matrix with `Σ⁻¹ = (1/|Σ|)·[[d, -b], [-c, a]]`. -/
noncomputable def distr_pdf (m1 m2 : ℝ) (S : Mat2) (x1 x2 : ℝ) : ℝ :=
  (1 / Real.sqrt ((2 * Real.pi) ^ 2 * det2 S)) *
    Real.exp (-((S.d * (x1 - m1) ^ 2 - (S.b + S.c) * ((x1 - m1) * (x2 - m2))
        + S.a * (x2 - m2) ^ 2) / det2 S) / 2)

/-- The univariate standard normal density, the factor the factorization
property compares against. -/
noncomputable def std_normal_pdf (x : ℝ) : ℝ :=
  (1 / Real.sqrt (2 * Real.pi)) * Real.exp (-(x ^ 2) / 2)

/-- `np.linspace a b num`: `num` evenly spaced points from `a` to `b`
inclusive. -/
noncomputable def linspace (a b : ℝ) (num : ℕ) : List ℝ :=
  (List.range num).map fun i : ℕ => a + (i : ℝ) * ((b - a) / ((num : ℝ) - 1))

/-- `sigma_1, sigma_2 = cov[0,0], cov[1,1]` of the visualizer. -/
def sigma_1 (val : ℝ) : ℝ := (covMat2 val).a

/-- The second diagonal entry read by the visualizer. -/
def sigma_2 (val : ℝ) : ℝ := (covMat2 val).d

/-- `x = np.linspace(-3*sigma_1, 3*sigma_1, num=100)` of the visualizer. -/
noncomputable def x_grid (val : ℝ) : List ℝ :=
  linspace (-3 * sigma_1 val) (3 * sigma_1 val) 100

/-- `y = np.linspace(-3*sigma_2, 3*sigma_2, num=100)` of the visualizer. -/
noncomputable def y_grid (val : ℝ) : List ℝ :=
  linspace (-3 * sigma_2 val) (3 * sigma_2 val) 100

/-! ## Question 3: the MNIST multilayer perceptron -/

/-- A vector: a list of reals. -/
abbrev Vec := List ℝ

/-- A matrix: its list of rows. -/
abbrev Mat := List (List ℝ)

/-- The parameter list of the MLP: one (weight matrix, bias vector) pair per
layer. -/
abbrev Params := List (Mat × Vec)

/-- Modelled from the spec: `ReLU` is called but never defined in the
repository's files; spec §4.3 calls it the rectified-linear nonlinearity. -/
noncomputable def ReLU (x : ℝ) : ℝ := max 0 x

/-- The dot product of two vectors, `np.dot` on vectors. -/
def dotprod (xs ys : Vec) : ℝ := (List.zipWith (· * ·) xs ys).sum

/-- `np.dot` of a matrix and a vector. -/
def matVec (w : Mat) (x : Vec) : Vec := w.map fun row => dotprod row x

/-- Elementwise vector addition. -/
def vecAdd (xs ys : Vec) : Vec := List.zipWith (· + ·) xs ys

/-- `relu_layer`: `ReLU(np.dot(params[0], x) + params[1])`. -/
noncomputable def relu_layer (w : Mat) (b : Vec) (x : Vec) : Vec :=
  (vecAdd (matVec w x) b).map ReLU

/-- `logsumexp` of a vector of logits. -/
noncomputable def logsumexp (l : List ℝ) : ℝ := Real.log ((l.map Real.exp).sum)

/-- `forward_pass`: ReLU layers over `params[:-1]`, the final affine
transform to logits, then `logits - logsumexp(logits)`. Python raises on an
empty parameter list (`params[-1]`), modelled as `none`. -/
noncomputable def forward_pass (params : Params) (in_array : Vec) : Option Vec :=
  match params.getLast? with
  | none => none
  | some pl =>
      let activations := params.dropLast.foldl (fun act wb => relu_layer wb.1 wb.2 act) in_array
      let logits := vecAdd (matVec pl.1 activations) pl.2
      some (logits.map fun z => z - logsumexp logits)

/-- `batch_forward = vmap(forward_pass, in_axes=(None, 0))`: the forward pass
applied to each row of a batch independently. -/
noncomputable def batch_forward (params : Params) (xs : Mat) : Mat :=
  xs.map fun x => (forward_pass params x).getD []

/-- `one_hot x k`: `np.array(x[:, None] == np.arange(k), dtype)` for a single
label: 1.0 at index `x`, 0.0 elsewhere. -/
def one_hot (x k : ℕ) : List ℝ := (List.range k).map fun i => if x = i then (1 : ℝ) else 0

/-- Auxiliary loop for `np.argmax`: `i` is the index of the head of the
remaining list, `best`/`bv` the index and value of the current maximum; a
later entry replaces the maximum only when strictly greater, so ties keep the
first occurrence, as `np.argmax` does. -/
noncomputable def argmaxGo : ℕ → ℕ → ℝ → List ℝ → ℕ
  | _, best, _, [] => best
  | i, best, bv, y :: ys =>
      if bv < y then argmaxGo (i + 1) i y ys else argmaxGo (i + 1) best bv ys

/-- `np.argmax`: the index of the first maximal entry (0 on the empty list,
where NumPy raises). -/
noncomputable def argmax : List ℝ → ℕ
  | [] => 0
  | x :: xs => argmaxGo 1 0 x xs

/-- `num_classes = 10` of the notebook. -/
def num_classes : ℕ := 10

/-- `target_class = np.argmax(targets, axis=1)` for one example: the arg-max
of the one-hot encoded target. -/
noncomputable def target_class (t : ℕ) : ℕ := argmax (one_hot t num_classes)

/-- `predicted_class = np.argmax(batch_forward(params, images), axis=1)` for
one example. -/
noncomputable def predicted_class (params : Params) (x : Vec) : ℕ :=
  argmax ((forward_pass params x).getD [])

/-- One batch of a data loader: the images (already flattened to vectors, the
loader's reshape glue) and the integer labels. -/
abbrev Batch := Mat × List ℕ

/-- `np.sum(predicted_class == target_class)` for one batch. -/
noncomputable def batchCorrect (params : Params) (data : Mat) (target : List ℕ) : ℕ :=
  (List.zipWith (fun x t => if predicted_class params x = target_class t then 1 else 0)
    data target).sum

/-- `len(data_loader.dataset)`: the total number of examples the loader
yields, the sum of its batch sizes. -/
def datasetSize (data_loader : List Batch) : ℕ :=
  (data_loader.map fun b => b.1.length).sum

/-- `accuracy`: accumulate `np.sum(predicted_class == target_class)` over the
loader's batches, then divide by the dataset size. -/
noncomputable def accuracy (params : Params) (data_loader : List Batch) : ℝ :=
  ((data_loader.foldl (fun acc b => acc + batchCorrect params b.1 b.2) 0 : ℕ) : ℝ) /
    ((datasetSize data_loader : ℕ) : ℝ)

/-- The number of examples of the loader whose predicted class equals the
target class. -/
noncomputable def matchCount (params : Params) (data_loader : List Batch) : ℕ :=
  (data_loader.map fun b =>
    ((List.zip b.1 b.2).filter fun e =>
      predicted_class params e.1 = target_class e.2).length).sum

/-- `loss`: the multi-class cross-entropy, `-np.sum(preds * targets)` with
`preds = batch_forward(params, in_arrays)`. -/
noncomputable def loss (params : Params) (in_arrays : Mat) (targets : Mat) : ℝ :=
  -(List.zipWith (fun p t => dotprod p t) (batch_forward params in_arrays) targets).sum

/-- Deterministic model of `jax.random.split(key)`: two fresh keys derived
from the parent key. -/
def split2 (key : ℕ) : ℕ × ℕ := (Nat.pair key 0, Nat.pair key 1)

/-- Deterministic model of `jax.random.split(key, n)`: `n` fresh keys derived
from the parent key. -/
def split_keys (key n : ℕ) : List ℕ := (List.range n).map fun i => Nat.pair key i

/-- Model of `jax.random.normal(key, (n, m))`: an `n × m` array of draws from
the sampler `gauss`, an arbitrary key-indexed Gaussian source kept as a
parameter so every theorem holds for any sampler. -/
def normal_mat (gauss : ℕ → ℕ → ℕ → ℝ) (key n m : ℕ) : Mat :=
  (List.range n).map fun r => (List.range m).map fun c => gauss key r c

/-- Model of `jax.random.normal(key, (n,))`: `n` draws from the sampler. -/
def normal_vec (gauss : ℕ → ℕ → ℕ → ℝ) (key n : ℕ) : Vec :=
  (List.range n).map fun r => gauss key r 0

/-- `initialize_layer(m, n, key, scale=1e-2)`: split the key into a weight
key and a bias key, then `scale * random.normal(w_key, (n, m))` and
`scale * random.normal(b_key, (n,))`. -/
noncomputable def initialize_layer (gauss : ℕ → ℕ → ℕ → ℝ) (m n key : ℕ) : Mat × Vec :=
  ((normal_mat gauss (split2 key).1 n m).map fun row => row.map fun w => (1 / 100 : ℝ) * w,
   (normal_vec gauss (split2 key).2 n).map fun w => (1 / 100 : ℝ) * w)

/-- `initialize_mlp(sizes, key)`: split the key into `len(sizes)` keys and
initialize one layer per entry of `zip(sizes[:-1], sizes[1:], keys)`. -/
noncomputable def initialize_mlp (gauss : ℕ → ℕ → ℕ → ℝ) (sizes : List ℕ) (key : ℕ) : Params :=
  (List.zip (List.zip sizes.dropLast sizes.tail) (split_keys key sizes.length)).map
    fun t => initialize_layer gauss t.1.1 t.1.2 t.2

/-- `update(params, x, y, opt_state)`: `value_and_grad(loss)` returns the
loss value together with its gradients — the gradient half is automatic
differentiation, an external capability abstracted as `gradFn` — then
`opt_update(0, grads, opt_state)` and `get_params` (the optimizer, also
external and abstract) produce the new state and parameters. -/
noncomputable def update {γ σ : Type} (gradFn : Params → Mat → Mat → γ)
    (opt_upd : ℕ → γ → σ → σ) (get_params : σ → Params)
    (params : Params) (x : Mat) (y : Mat) (opt_state : σ) : Params × σ × ℝ :=
  let value := loss params x y
  let grads := gradFn params x y
  let opt_state2 := opt_upd 0 grads opt_state
  (get_params opt_state2, opt_state2, value)

/-- The mutable state of `run_mnist_training_loop`: the current parameters
and optimizer state, the three logs, and the lines printed so far (stdout). -/
structure LoopState (σ : Type) where
  params : Params
  opt_st : σ
  train_loss : List ℝ
  log_acc_train : List ℝ
  log_acc_test : List ℝ
  printed : List String

/-- One line of the loop's console output:
`"Epoch {} | T: {:0.2f} | Train A: {:0.3f} | Test A: {:0.3f}".format(...)`,
with the float formatting abstracted into the caller's strings. -/
def status_line (n : ℕ) (t ta tb : String) : String :=
  "Epoch " ++ toString n ++ " | T: " ++ t ++ " | Train A: " ++ ta ++ " | Test A: " ++ tb

/-- The body of the inner batch loop: one-hot encode the batch's targets,
run `update`, append the scalar loss to the train-loss log. -/
noncomputable def train_batch_step {γ σ : Type} (gradFn : Params → Mat → Mat → γ)
    (opt_upd : ℕ → γ → σ → σ) (get_params : σ → Params)
    (st : Params × σ × List ℝ) (batch : Batch) : Params × σ × List ℝ :=
  let y := batch.2.map fun t => one_hot t num_classes
  let r := update gradFn opt_upd get_params st.1 batch.1 y st.2.1
  (r.1, r.2.1, st.2.2 ++ [r.2.2])

/-- One epoch of the training loop: fold `update` over all training batches,
then evaluate accuracy on both splits, append both to their logs, and print
one status line (`fmtT` formats the epoch's wall-clock time, `fmtA` an
accuracy — external formatting kept abstract). -/
noncomputable def epoch_step {γ σ : Type} (gradFn : Params → Mat → Mat → γ)
    (opt_upd : ℕ → γ → σ → σ) (get_params : σ → Params)
    (fmtT : ℕ → String) (fmtA : ℝ → String)
    (train_loader test_loader : List Batch) (st : LoopState σ) (epoch : ℕ) : LoopState σ :=
  let inner := train_loader.foldl (train_batch_step gradFn opt_upd get_params)
    (st.params, st.opt_st, st.train_loss)
  let train_acc := accuracy inner.1 train_loader
  let test_acc := accuracy inner.1 test_loader
  { params := inner.1
    opt_st := inner.2.1
    train_loss := inner.2.2
    log_acc_train := st.log_acc_train ++ [train_acc]
    log_acc_test := st.log_acc_test ++ [test_acc]
    printed := st.printed ++
      [status_line (epoch + 1) (fmtT epoch) (fmtA train_acc) (fmtA test_acc)] }

/-- `run_mnist_training_loop(num_epochs, opt_state)`: evaluate and log the
accuracy of the freshly initialized parameters once, then run
`for epoch in range(num_epochs)` over `epoch_step`. -/
noncomputable def run_mnist_training_loop {γ σ : Type} (gradFn : Params → Mat → Mat → γ)
    (opt_upd : ℕ → γ → σ → σ) (get_params : σ → Params)
    (fmtT : ℕ → String) (fmtA : ℝ → String) (num_epochs : ℕ) (opt_state : σ)
    (train_loader test_loader : List Batch) : LoopState σ :=
  let params0 := get_params opt_state
  (List.range num_epochs).foldl
    (epoch_step gradFn opt_upd get_params fmtT fmtA train_loader test_loader)
    { params := params0
      opt_st := opt_state
      train_loss := []
      log_acc_train := [accuracy params0 train_loader]
      log_acc_test := [accuracy params0 test_loader]
      printed := [] }

theorem linspace_length (a b : ℝ) (num : ℕ) : (linspace a b num).length = num := by
  simp [linspace]

theorem linspace_head (a b : ℝ) (num : ℕ) (h : 0 < num) :
    (linspace a b num).head? = some a := by
  obtain ⟨m, rfl⟩ := Nat.exists_eq_succ_of_ne_zero h.ne'
  rw [linspace, List.range_succ_eq_map]
  simp

theorem linspace_getLast (a b : ℝ) (num : ℕ) (h : 2 ≤ num) :
    (linspace a b num).getLast? = some b := by
  have hne : ((num : ℝ) - 1) ≠ 0 := by
    have h2 : (2 : ℝ) ≤ (num : ℝ) := by exact_mod_cast h
    nlinarith
  have hidx : num - 1 < num := Nat.sub_lt (by omega) one_pos
  rw [linspace, List.getLast?_eq_getElem?]
  simp only [List.length_map, List.length_range]
  rw [List.getElem?_map, List.getElem?_range hidx, Option.map_some']
  congr 1
  have h1 : 1 ≤ num := by omega
  rw [Nat.cast_sub h1, Nat.cast_one]
  field_simp

/-- C2: for every non-singular 2×2 covariance matrix, the bivariate normal
density evaluated at the mean vector equals `1/(2π·sqrt |Σ|)` exactly: the
exponential of the quadratic form vanishes at the mean, leaving only the
normalizing constant. -/
theorem distr_pdf_at_mean (m1 m2 : ℝ) (S : Mat2) (h : det2 S ≠ 0) :
    distr_pdf m1 m2 S m1 m2 = 1 / (2 * Real.pi * Real.sqrt (det2 S)) := by
  have h2pi : (0 : ℝ) ≤ 2 * Real.pi := by positivity
  unfold distr_pdf
  have hq : (S.d * (m1 - m1) ^ 2 - (S.b + S.c) * ((m1 - m1) * (m2 - m2))
      + S.a * (m2 - m2) ^ 2) / det2 S = 0 := by
    norm_num
  rw [hq, neg_zero, zero_div, Real.exp_zero, mul_one,
    Real.sqrt_mul (sq_nonneg (2 * Real.pi)) (det2 S), Real.sqrt_sq h2pi]

/-- Witness for C2 at the identity covariance matrix. -/
theorem distr_pdf_at_mean_witness :
    det2 ⟨1, 0, 0, 1⟩ ≠ 0 ∧
      distr_pdf 0 0 ⟨1, 0, 0, 1⟩ 0 0 = 1 / (2 * Real.pi * Real.sqrt (det2 ⟨1, 0, 0, 1⟩)) :=
  ⟨by norm_num [det2], distr_pdf_at_mean 0 0 ⟨1, 0, 0, 1⟩ (by norm_num [det2])⟩

/-- C3: with the zero off-diagonal covariance matrix of the program's
iteration (`val = 0`, i.e. `cov = [[1,0],[0,1]]`) and the program's mean
`(0, 0)`, the joint bivariate density at `(x1, x2)` equals the product of the
two univariate standard normal densities at `x1` and at `x2`. -/
theorem distr_pdf_factorizes (x1 x2 : ℝ) :
    distr_pdf 0 0 (covMat2 0) x1 x2 = std_normal_pdf x1 * std_normal_pdf x2 := by
  have h2pi : (0 : ℝ) ≤ 2 * Real.pi := by positivity
  have hsq : Real.sqrt (2 * Real.pi) * Real.sqrt (2 * Real.pi) = 2 * Real.pi :=
    Real.mul_self_sqrt h2pi
  have harg : distr_pdf 0 0 (covMat2 0) x1 x2
      = (1 / (2 * Real.pi)) * Real.exp (-(x1 ^ 2) / 2 + -(x2 ^ 2) / 2) := by
    unfold distr_pdf
    have h1 : ((covMat2 0).d * (x1 - 0) ^ 2 - ((covMat2 0).b + (covMat2 0).c) *
        ((x1 - 0) * (x2 - 0)) + (covMat2 0).a * (x2 - 0) ^ 2) / det2 (covMat2 0)
        = x1 ^ 2 + x2 ^ 2 := by
      norm_num [covMat2, det2]
    have h2 : (2 * Real.pi) ^ 2 * det2 (covMat2 0) = (2 * Real.pi) ^ 2 := by
      norm_num [covMat2, det2]
    rw [h1, h2, Real.sqrt_sq h2pi]
    congr 1
    ring
  rw [harg, Real.exp_add]
  unfold std_normal_pdf
  rw [eq_comm]
  calc (1 / Real.sqrt (2 * Real.pi)) * Real.exp (-(x1 ^ 2) / 2) *
        ((1 / Real.sqrt (2 * Real.pi)) * Real.exp (-(x2 ^ 2) / 2))
      = (1 / (Real.sqrt (2 * Real.pi) * Real.sqrt (2 * Real.pi))) *
        (Real.exp (-(x1 ^ 2) / 2) * Real.exp (-(x2 ^ 2) / 2)) := by ring
    _ = (1 / (2 * Real.pi)) * (Real.exp (-(x1 ^ 2) / 2) * Real.exp (-(x2 ^ 2) / 2)) := by
        rw [hsq]

/-- C8: for every covariance value the visualizer iterates over, the grid on
each axis has 100 points and spans from -3 standard deviations to +3 standard
deviations of that axis, the standard deviation of axis i being
`sqrt(cov[i][i])` (the diagonal entries are all 1, so `sqrt(cov[i][i])`
coincides with the code's `cov[i][i]`). -/
theorem grid_spans_three_sigma (val : ℝ) (h : val ∈ cov_val) :
    (x_grid val).length = 100 ∧ (y_grid val).length = 100 ∧
      (x_grid val).head? = some (-3 * Real.sqrt (covMat2 val).a) ∧
      (x_grid val).getLast? = some (3 * Real.sqrt (covMat2 val).a) ∧
      (y_grid val).head? = some (-3 * Real.sqrt (covMat2 val).d) ∧
      (y_grid val).getLast? = some (3 * Real.sqrt (covMat2 val).d) := by
  have ha : (covMat2 val).a = 1 := rfl
  have hd : (covMat2 val).d = 1 := rfl
  have hs1 : sigma_1 val = 1 := rfl
  have hs2 : sigma_2 val = 1 := rfl
  refine ⟨?_, ?_, ?_, ?_, ?_, ?_⟩
  · exact linspace_length _ _ _
  · exact linspace_length _ _ _
  · rw [ha, Real.sqrt_one, x_grid, hs1, linspace_head _ _ _ (by norm_num)]
  · rw [ha, Real.sqrt_one, x_grid, hs1, linspace_getLast _ _ _ (by norm_num)]
  · rw [hd, Real.sqrt_one, y_grid, hs2, linspace_head _ _ _ (by norm_num)]
  · rw [hd, Real.sqrt_one, y_grid, hs2, linspace_getLast _ _ _ (by norm_num)]

/-- Witness for C8 at the zero off-diagonal iteration. -/
theorem grid_spans_three_sigma_witness :
    (0 : ℝ) ∈ cov_val ∧ (x_grid 0).length = 100 :=
  ⟨by norm_num [cov_val], (grid_spans_three_sigma 0 (by norm_num [cov_val])).1⟩

theorem sum_map_exp_pos (L : List ℝ) (h : L ≠ []) : 0 < (L.map Real.exp).sum := by
  cases L with
  | nil => exact absurd rfl h
  | cons a t =>
      simp only [List.map_cons, List.sum_cons]
      have ht : 0 ≤ (t.map Real.exp).sum := by
        apply List.sum_nonneg
        intro x hx
        obtain ⟨y, _, rfl⟩ := List.mem_map.mp hx
        exact (Real.exp_pos y).le
      linarith [Real.exp_pos a]

theorem sum_exp_log_softmax (L : List ℝ) (h : L ≠ []) :
    ((L.map fun z => z - logsumexp L).map Real.exp).sum = 1 := by
  have hpos := sum_map_exp_pos L h
  rw [List.map_map]
  have hfun : (Real.exp ∘ fun z => z - logsumexp L)
      = fun z => Real.exp z * ((L.map Real.exp).sum)⁻¹ := by
    funext z
    simp only [Function.comp_apply]
    rw [Real.exp_sub, logsumexp, Real.exp_log hpos, div_eq_mul_inv]
  rw [hfun, List.sum_map_mul_right, mul_inv_cancel₀ (ne_of_gt hpos)]

/-- C1: whenever `forward_pass` returns a (nonempty) log-probability vector,
the exponentials of its entries sum to exactly 1: the subtraction of
`logsumexp(logits)` normalizes the logits into log-probabilities. -/
theorem forward_pass_normalized (params : Params) (in_array : Vec) (v : Vec)
    (hv : forward_pass params in_array = some v) (hne : v ≠ []) :
    (v.map Real.exp).sum = 1 := by
  unfold forward_pass at hv
  split at hv
  · exact absurd hv (by simp)
  · simp only [Option.some.injEq] at hv
    subst hv
    apply sum_exp_log_softmax
    intro hnil
    apply hne
    rw [hnil]
    rfl

/-- Witness for C1: a one-layer network on a one-dimensional input. -/
theorem forward_pass_normalized_witness :
    forward_pass [([[(1 : ℝ)]], [0])] [0] = some [0] ∧
      (([(0 : ℝ)]).map Real.exp).sum = 1 :=
  ⟨by simp [forward_pass, relu_layer, matVec, vecAdd, dotprod, logsumexp],
   forward_pass_normalized [([[(1 : ℝ)]], [0])] [0] [0]
     (by simp [forward_pass, relu_layer, matVec, vecAdd, dotprod, logsumexp])
     (by simp)⟩

theorem argmaxGo_nonneg_zeros (n i best : ℕ) (bv : ℝ) (hbv : 0 ≤ bv) :
    argmaxGo i best bv (List.replicate n 0) = best := by
  induction n generalizing i with
  | zero => rfl
  | succ m ih =>
      rw [List.replicate_succ]
      show (if bv < 0 then argmaxGo (i + 1) i 0 (List.replicate m 0)
        else argmaxGo (i + 1) best bv (List.replicate m 0)) = best
      rw [if_neg (not_lt.mpr hbv)]
      exact ih _

theorem argmaxGo_zeros_one (m n : ℕ) : ∀ i best : ℕ,
    argmaxGo i best 0 (List.replicate m (0 : ℝ) ++ 1 :: List.replicate n 0) = i + m := by
  induction m with
  | zero =>
      intro i best
      simp only [List.replicate_zero, List.nil_append]
      show (if (0 : ℝ) < 1 then argmaxGo (i + 1) i 1 (List.replicate n 0)
        else argmaxGo (i + 1) best 0 (List.replicate n 0)) = i + 0
      rw [if_pos (by norm_num), argmaxGo_nonneg_zeros _ _ _ _ (by norm_num)]
      omega
  | succ k ih =>
      intro i best
      rw [List.replicate_succ, List.cons_append]
      show (if (0 : ℝ) < 0 then argmaxGo (i + 1) i 0 (List.replicate k (0 : ℝ) ++ 1 :: List.replicate n 0)
        else argmaxGo (i + 1) best 0 (List.replicate k (0 : ℝ) ++ 1 :: List.replicate n 0)) = i + (k + 1)
      rw [if_neg (lt_irrefl 0), ih]
      omega

theorem one_hot_eq_replicate_append (x k : ℕ) (hx : x < k) :
    one_hot x k = List.replicate x 0 ++ 1 :: List.replicate (k - x - 1) 0 := by
  have hsplit : List.range k = List.range x ++ (List.range (k - x)).map (x + ·) := by
    conv_lhs => rw [show k = x + (k - x) by omega]
    exact List.range_add x (k - x)
  rw [one_hot, hsplit, List.map_append]
  congr 1
  · rw [List.eq_replicate_iff]
    refine ⟨by simp, ?_⟩
    intro b hb
    obtain ⟨i, hi, rfl⟩ := List.mem_map.mp hb
    rw [List.mem_range] at hi
    rw [if_neg (by omega)]
  · have h1 : k - x = (k - x - 1) + 1 := by omega
    rw [List.map_map, h1, List.range_succ_eq_map, List.map_cons, List.map_map]
    congr 1
    · show (if x = x + 0 then (1 : ℝ) else 0) = 1
      rw [if_pos (by omega)]
    · rw [List.eq_replicate_iff]
      refine ⟨by simp, ?_⟩
      intro b hb
      obtain ⟨i, hi, rfl⟩ := List.mem_map.mp hb
      show (if x = x + Nat.succ i then (1 : ℝ) else 0) = 0
      rw [if_neg (by omega)]

theorem argmax_one_hot (x k : ℕ) (hx : x < k) : argmax (one_hot x k) = x := by
  rw [one_hot_eq_replicate_append x k hx]
  cases x with
  | zero =>
      simp only [List.replicate_zero, List.nil_append]
      show argmaxGo 1 0 1 (List.replicate (k - 0 - 1) 0) = 0
      exact argmaxGo_nonneg_zeros _ _ _ _ (by norm_num)
  | succ m =>
      rw [List.replicate_succ, List.cons_append]
      show argmaxGo 1 0 0 (List.replicate m (0 : ℝ) ++ 1 :: List.replicate (k - (m + 1) - 1) 0)
        = m + 1
      rw [argmaxGo_zeros_one]
      omega

/-- C5: for every number of classes `k > 0` and every label `x < k`, the
arg-max of the one-hot encoding of `x` is `x` again. -/
theorem one_hot_argmax_roundtrip (x k : ℕ) (hk : 0 < k) (hx : x < k) :
    argmax (one_hot x k) = x :=
  argmax_one_hot x k hx

/-- Witness for C5 at `x = 2`, `k = 4`. -/
theorem one_hot_argmax_roundtrip_witness :
    0 < 4 ∧ 2 < 4 ∧ argmax (one_hot 2 4) = 2 :=
  ⟨by norm_num, by norm_num, one_hot_argmax_roundtrip 2 4 (by norm_num) (by norm_num)⟩

theorem foldl_add_batchCorrect (params : Params) (loader : List Batch) (n : ℕ) :
    loader.foldl (fun acc b => acc + batchCorrect params b.1 b.2) n
      = n + (loader.map fun b => batchCorrect params b.1 b.2).sum := by
  induction loader generalizing n with
  | nil => simp
  | cons b t ih => simp [List.foldl_cons, ih, Nat.add_assoc]

theorem zipWith_count_eq_length_filter {α β : Type} (p : α → β → Prop)
    [inst : ∀ x t, Decidable (p x t)] (l₁ : List α) (l₂ : List β) :
    (List.zipWith (fun x t => if p x t then (1 : ℕ) else 0) l₁ l₂).sum
      = ((List.zip l₁ l₂).filter fun e => p e.1 e.2).length := by
  induction l₁ generalizing l₂ with
  | nil => simp
  | cons a t ih =>
      cases l₂ with
      | nil => simp
      | cons b u =>
          simp only [List.zipWith_cons_cons, List.zip_cons_cons, List.sum_cons,
            List.filter_cons]
          by_cases hp : p a b
          · simp only [hp, if_true, decide_eq_true_eq, hp, List.length_cons, ih]
            omega
          · simp only [hp, if_false, decide_eq_true_eq, ih]
            simp [hp]

theorem matchCount_eq_sum_batchCorrect (params : Params) (loader : List Batch) :
    (loader.map fun b => batchCorrect params b.1 b.2).sum = matchCount params loader := by
  unfold matchCount batchCorrect
  congr 1
  apply List.map_congr_left
  intro b _
  exact zipWith_count_eq_length_filter _ _ _

/-- C4: the accuracy function returns the fraction of examples of the data
split whose predicted class (arg-max of the forward-pass log-probabilities)
equals the target class, accumulated across all batches; in particular it
returns exactly 1 when every prediction matches its target, and exactly 0
when no prediction matches. -/
theorem accuracy_is_fraction (params : Params) (loader : List Batch)
    (hwf : ∀ b ∈ loader, (b : Batch).1.length = b.2.length)
    (hpos : 0 < datasetSize loader) :
    accuracy params loader
        = ((matchCount params loader : ℕ) : ℝ) / ((datasetSize loader : ℕ) : ℝ)
      ∧ ((∀ b ∈ loader, ∀ e ∈ List.zip (b : Batch).1 b.2,
            predicted_class params (e : Vec × ℕ).1 = target_class e.2) →
          accuracy params loader = 1)
      ∧ ((∀ b ∈ loader, ∀ e ∈ List.zip (b : Batch).1 b.2,
            predicted_class params (e : Vec × ℕ).1 ≠ target_class e.2) →
          accuracy params loader = 0) := by
  have hacc : accuracy params loader
      = ((matchCount params loader : ℕ) : ℝ) / ((datasetSize loader : ℕ) : ℝ) := by
    unfold accuracy
    rw [foldl_add_batchCorrect, Nat.zero_add, matchCount_eq_sum_batchCorrect]
  refine ⟨hacc, ?_, ?_⟩
  · intro hall
    have hmc : matchCount params loader = datasetSize loader := by
      unfold matchCount datasetSize
      congr 1
      apply List.map_congr_left
      intro b hb
      have hf : (List.zip (b : Batch).1 b.2).filter
          (fun e => predicted_class params (e : Vec × ℕ).1 = target_class e.2)
          = List.zip b.1 b.2 := by
        apply List.filter_eq_self.mpr
        intro e he
        exact decide_eq_true (hall b hb e he)
      rw [hf, List.length_zip, hwf b hb, min_self]
    rw [hacc, hmc, div_self]
    exact_mod_cast hpos.ne'
  · intro hnone
    have hmc : matchCount params loader = 0 := by
      unfold matchCount
      apply List.sum_eq_zero
      intro x hx
      obtain ⟨b, hb, rfl⟩ := List.mem_map.mp hx
      rw [List.length_eq_zero]
      apply List.filter_eq_nil_iff.mpr
      intro e he
      simp only [decide_eq_true_eq]
      exact hnone b hb e he
    rw [hacc, hmc]
    simp

/-- Witness for C4: a one-batch loader whose single prediction matches its
target, giving accuracy exactly 1. -/
theorem accuracy_is_fraction_witness :
    0 < datasetSize [([[(0 : ℝ)]], [0])] ∧
      accuracy [([[(1 : ℝ)], [0]], [0, 0])] [([[(0 : ℝ)]], [0])] = 1 := by
  have hfp : forward_pass [([[(1 : ℝ)], [0]], [0, 0])] [0]
      = some [0 - logsumexp [0, 0], 0 - logsumexp [0, 0]] := by
    simp [forward_pass, matVec, vecAdd, dotprod]
  have hpred : predicted_class [([[(1 : ℝ)], [0]], [0, 0])] [0] = 0 := by
    rw [predicted_class, hfp]
    simp [argmax, argmaxGo, lt_irrefl]
  have htgt : target_class 0 = 0 :=
    argmax_one_hot 0 num_classes (by norm_num [num_classes])
  refine ⟨by norm_num [datasetSize], ?_⟩
  apply (accuracy_is_fraction [([[(1 : ℝ)], [0]], [0, 0])] [([[(0 : ℝ)]], [0])]
    ?_ (by norm_num [datasetSize])).2.1
  · intro b hb e he
    rw [List.mem_singleton] at hb
    subst hb
    simp only [List.zip_cons_cons, List.zip_nil_left, List.mem_singleton] at he
    subst he
    rw [hpred, htgt]
  · intro b hb
    rw [List.mem_singleton] at hb
    subst hb
    rfl

theorem getD_map_range {α : Type} (f : ℕ → α) (n i : ℕ) (d : α) (h : i < n) :
    ((List.range n).map f).getD i d = f i := by
  rw [List.getD_eq_getElem?_getD, List.getElem?_map, List.getElem?_range h,
    Option.map_some', Option.getD_some]

theorem getD_map_of_lt {α β : Type} (f : α → β) (l : List α) (i : ℕ) (d : α) (dd : β)
    (h : i < l.length) :
    (l.map f).getD i dd = f (l.getD i d) := by
  rw [List.getD_eq_getElem?_getD, List.getElem?_map, List.getElem?_eq_getElem h,
    Option.map_some', Option.getD_some, List.getD_eq_getElem _ _ h]

theorem getD_zip_lt {α β : Type} (l₁ : List α) (l₂ : List β) (i : ℕ) (d₁ : α) (d₂ : β)
    (h₁ : i < l₁.length) (h₂ : i < l₂.length) :
    (List.zip l₁ l₂).getD i (d₁, d₂) = (l₁.getD i d₁, l₂.getD i d₂) := by
  induction l₁ generalizing l₂ i with
  | nil => simp at h₁
  | cons a t ih =>
      cases l₂ with
      | nil => simp at h₂
      | cons b u =>
          cases i with
          | zero => rfl
          | succ j =>
              simp only [List.zip_cons_cons, List.getD_cons_succ]
              exact ih u j (by simpa using h₁) (by simpa using h₂)

theorem getD_dropLast (l : List ℕ) (i d : ℕ) (h : i < l.length - 1) :
    l.dropLast.getD i d = l.getD i d := by
  have h1 : i < l.dropLast.length := by rw [List.length_dropLast]; exact h
  have h2 : i < l.length := by omega
  rw [List.getD_eq_getElem _ _ h1, List.getD_eq_getElem _ _ h2, List.getElem_dropLast]

theorem getD_tail (l : List ℕ) (i d : ℕ) (h : i < l.length - 1) :
    l.tail.getD i d = l.getD (i + 1) d := by
  have h1 : i < l.tail.length := by rw [List.length_tail]; exact h
  have h2 : i + 1 < l.length := by omega
  rw [List.getD_eq_getElem _ _ h1, List.getD_eq_getElem _ _ h2, List.getElem_tail]

theorem getD_split_keys (key n i d : ℕ) (h : i < n) :
    (split_keys key n).getD i d = Nat.pair key i := by
  unfold split_keys
  exact getD_map_range _ _ _ _ h

theorem initialize_mlp_length (gauss : ℕ → ℕ → ℕ → ℝ) (sizes : List ℕ) (key : ℕ) :
    (initialize_mlp gauss sizes key).length = sizes.length - 1 := by
  unfold initialize_mlp split_keys
  simp [List.length_zip]

theorem initialize_mlp_getD (gauss : ℕ → ℕ → ℕ → ℝ) (sizes : List ℕ) (key i : ℕ)
    (hi : i < sizes.length - 1) :
    (initialize_mlp gauss sizes key).getD i ([], [])
      = initialize_layer gauss (sizes.getD i 0) (sizes.getD (i + 1) 0) (Nat.pair key i) := by
  unfold initialize_mlp
  have hd : i < sizes.dropLast.length := by rw [List.length_dropLast]; exact hi
  have ht : i < sizes.tail.length := by rw [List.length_tail]; exact hi
  have hzz : i < (List.zip sizes.dropLast sizes.tail).length := by
    rw [List.length_zip, List.length_dropLast, List.length_tail]
    omega
  have hk : i < (split_keys key sizes.length).length := by
    unfold split_keys
    rw [List.length_map, List.length_range]
    omega
  have hz : i < (List.zip (List.zip sizes.dropLast sizes.tail)
      (split_keys key sizes.length)).length := by
    rw [List.length_zip]
    omega
  rw [getD_map_of_lt _ _ _ ((0, 0), 0) _ hz]
  rw [getD_zip_lt _ _ _ _ _ hzz hk]
  rw [getD_zip_lt _ _ _ _ _ hd ht]
  rw [getD_dropLast _ _ _ hi, getD_tail _ _ _ hi, getD_split_keys _ _ _ _ (by omega)]

theorem initialize_layer_shapes (gauss : ℕ → ℕ → ℕ → ℝ) (m n key : ℕ) :
    (initialize_layer gauss m n key).1.length = n
    ∧ (∀ row ∈ (initialize_layer gauss m n key).1, row.length = m)
    ∧ (initialize_layer gauss m n key).2.length = n := by
  refine ⟨by simp [initialize_layer, normal_mat], ?_, by simp [initialize_layer, normal_vec]⟩
  intro row hrow
  simp only [initialize_layer, normal_mat, List.map_map, List.mem_map] at hrow
  obtain ⟨r, _, rfl⟩ := hrow
  simp

theorem initialize_layer_weight_entry (gauss : ℕ → ℕ → ℕ → ℝ) (m n key r c : ℕ)
    (hr : r < n) (hc : c < m) :
    (((initialize_layer gauss m n key).1.getD r []).getD c 0)
      = (1 / 100 : ℝ) * gauss (split2 key).1 r c := by
  unfold initialize_layer normal_mat
  rw [List.map_map, getD_map_range _ _ _ _ hr]
  simp only [Function.comp_apply]
  rw [List.map_map, getD_map_range _ _ _ _ hc]
  rfl

theorem initialize_layer_bias_entry (gauss : ℕ → ℕ → ℕ → ℝ) (m n key r : ℕ) (hr : r < n) :
    ((initialize_layer gauss m n key).2.getD r 0) = (1 / 100 : ℝ) * gauss (split2 key).2 r 0 := by
  unfold initialize_layer normal_vec
  rw [List.map_map, getD_map_range _ _ _ _ hr]
  rfl

/-- C6: for every width sequence `sizes` of length at least 1 and every key,
`initialize_mlp` returns exactly `sizes.length - 1` (weight, bias) pairs, one
per consecutive width pair: pair `i` has weight shape
`(sizes[i+1], sizes[i])` and bias shape `(sizes[i+1],)`, and each entry is a
draw of the Gaussian sampler scaled by `1e-2`. -/
theorem initialize_mlp_shapes (gauss : ℕ → ℕ → ℕ → ℝ) (sizes : List ℕ) (key : ℕ)
    (hlen : 1 ≤ sizes.length) :
    (initialize_mlp gauss sizes key).length = sizes.length - 1
    ∧ ∀ i, i < sizes.length - 1 →
        ((initialize_mlp gauss sizes key).getD i ([], [])).1.length = sizes.getD (i + 1) 0
        ∧ (∀ row ∈ ((initialize_mlp gauss sizes key).getD i ([], [])).1,
            row.length = sizes.getD i 0)
        ∧ ((initialize_mlp gauss sizes key).getD i ([], [])).2.length = sizes.getD (i + 1) 0
        ∧ (∀ r c, r < sizes.getD (i + 1) 0 → c < sizes.getD i 0 →
            ((((initialize_mlp gauss sizes key).getD i ([], [])).1.getD r []).getD c 0)
              = (1 / 100 : ℝ) * gauss (split2 (Nat.pair key i)).1 r c)
        ∧ (∀ r, r < sizes.getD (i + 1) 0 →
            (((initialize_mlp gauss sizes key).getD i ([], [])).2.getD r 0)
              = (1 / 100 : ℝ) * gauss (split2 (Nat.pair key i)).2 r 0) := by
  refine ⟨initialize_mlp_length gauss sizes key, ?_⟩
  intro i hi
  rw [initialize_mlp_getD gauss sizes key i hi]
  exact ⟨(initialize_layer_shapes _ _ _ _).1, (initialize_layer_shapes _ _ _ _).2.1,
    (initialize_layer_shapes _ _ _ _).2.2,
    fun r c hr hc => initialize_layer_weight_entry _ _ _ _ _ _ hr hc,
    fun r hr => initialize_layer_bias_entry _ _ _ _ _ hr⟩

/-- Witness for C6 on the width sequence `[2, 3]`. -/
theorem initialize_mlp_shapes_witness :
    1 ≤ ([2, 3] : List ℕ).length ∧
      (initialize_mlp (fun _ _ _ => (0 : ℝ)) [2, 3] 0).length = ([2, 3] : List ℕ).length - 1 :=
  ⟨by norm_num, (initialize_mlp_shapes (fun _ _ _ => (0 : ℝ)) [2, 3] 0 (by norm_num)).1⟩

/-- C7: `initialize_mlp` is deterministic: two runs with identical seed and
identical width sequence return identical parameter lists (the PRNG is the
explicitly threaded key; there is no hidden random state). -/
theorem initialize_mlp_deterministic (gauss : ℕ → ℕ → ℕ → ℝ) (sizes1 sizes2 : List ℕ)
    (key1 key2 : ℕ) (hs : sizes1 = sizes2) (hk : key1 = key2) :
    initialize_mlp gauss sizes1 key1 = initialize_mlp gauss sizes2 key2 := by
  rw [hs, hk]

/-- Witness for C7 on the notebook's width sequence and seed. -/
theorem initialize_mlp_deterministic_witness :
    ([784, 512, 512, 10] : List ℕ) = [784, 512, 512, 10] ∧ (1 : ℕ) = 1 ∧
      initialize_mlp (fun k r c => (k + r + c : ℝ)) [784, 512, 512, 10] 1
        = initialize_mlp (fun k r c => (k + r + c : ℝ)) [784, 512, 512, 10] 1 :=
  ⟨rfl, rfl, initialize_mlp_deterministic _ _ _ _ _ rfl rfl⟩

theorem train_batches_loss_length {γ σ : Type} (gradFn : Params → Mat → Mat → γ)
    (opt_upd : ℕ → γ → σ → σ) (get_params : σ → Params) (batches : List Batch) :
    ∀ st : Params × σ × List ℝ,
      (batches.foldl (train_batch_step gradFn opt_upd get_params) st).2.2.length
        = st.2.2.length + batches.length := by
  induction batches with
  | nil => intro st; simp
  | cons b t ih =>
      intro st
      rw [List.foldl_cons, ih]
      simp only [train_batch_step, List.length_append, List.length_cons, List.length_nil]
      omega

theorem run_loop_succ {γ σ : Type} (gradFn : Params → Mat → Mat → γ)
    (opt_upd : ℕ → γ → σ → σ) (get_params : σ → Params)
    (fmtT : ℕ → String) (fmtA : ℝ → String) (n : ℕ) (opt_state : σ)
    (train_loader test_loader : List Batch) :
    run_mnist_training_loop gradFn opt_upd get_params fmtT fmtA (n + 1) opt_state
        train_loader test_loader
      = epoch_step gradFn opt_upd get_params fmtT fmtA train_loader test_loader
          (run_mnist_training_loop gradFn opt_upd get_params fmtT fmtA n opt_state train_loader test_loader) n := by
  unfold run_mnist_training_loop
  rw [List.range_succ, List.foldl_append, List.foldl_cons, List.foldl_nil]

theorem run_loop_invariant {γ σ : Type} (gradFn : Params → Mat → Mat → γ)
    (opt_upd : ℕ → γ → σ → σ) (get_params : σ → Params)
    (fmtT : ℕ → String) (fmtA : ℝ → String) (opt_state : σ)
    (train_loader test_loader : List Batch) : ∀ n : ℕ,
    (run_mnist_training_loop gradFn opt_upd get_params fmtT fmtA n opt_state train_loader test_loader).printed.length = n
    ∧ (run_mnist_training_loop gradFn opt_upd get_params fmtT fmtA n opt_state train_loader test_loader).train_loss.length = n * train_loader.length
    ∧ (run_mnist_training_loop gradFn opt_upd get_params fmtT fmtA n opt_state train_loader test_loader).log_acc_train.length = n + 1
    ∧ (run_mnist_training_loop gradFn opt_upd get_params fmtT fmtA n opt_state train_loader test_loader).log_acc_test.length = n + 1
    ∧ (run_mnist_training_loop gradFn opt_upd get_params fmtT fmtA n opt_state train_loader test_loader).log_acc_train.getD 0 0 = accuracy (get_params opt_state) train_loader
    ∧ (run_mnist_training_loop gradFn opt_upd get_params fmtT fmtA n opt_state train_loader test_loader).log_acc_test.getD 0 0 = accuracy (get_params opt_state) test_loader
    ∧ ∀ i, i < n →
        (run_mnist_training_loop gradFn opt_upd get_params fmtT fmtA n opt_state train_loader test_loader).printed.getD i ""
          = status_line (i + 1) (fmtT i)
              (fmtA ((run_mnist_training_loop gradFn opt_upd get_params fmtT fmtA n opt_state train_loader test_loader).log_acc_train.getD (i + 1) 0))
              (fmtA ((run_mnist_training_loop gradFn opt_upd get_params fmtT fmtA n opt_state train_loader test_loader).log_acc_test.getD (i + 1) 0)) := by
  intro n
  induction n with
  | zero =>
      refine ⟨by simp [run_mnist_training_loop], by simp [run_mnist_training_loop],
        by simp [run_mnist_training_loop], by simp [run_mnist_training_loop],
        by simp [run_mnist_training_loop], by simp [run_mnist_training_loop], ?_⟩
      intro i hi
      exact absurd hi (Nat.not_lt_zero i)
  | succ n ih =>
      obtain ⟨h1, h2, h3, h4, h5, h6, h7⟩ := ih
      rw [run_loop_succ]
      simp only [epoch_step]
      refine ⟨?_, ?_, ?_, ?_, ?_, ?_, ?_⟩
      · rw [List.length_append, h1]
        rfl
      · rw [train_batches_loss_length, h2, Nat.succ_mul]
      · rw [List.length_append, h3]
        rfl
      · rw [List.length_append, h4]
        rfl
      · rw [List.getD_append _ _ _ _ (by rw [h3]; omega), h5]
      · rw [List.getD_append _ _ _ _ (by rw [h4]; omega), h6]
      · intro i hi
        by_cases hin : i < n
        · rw [List.getD_append _ _ _ _ (by rw [h1]; omega),
            List.getD_append _ _ _ _ (by rw [h3]; omega),
            List.getD_append _ _ _ _ (by rw [h4]; omega)]
          exact h7 i hin
        · have hieq : i = n := by omega
          subst hieq
          rw [List.getD_append_right _ _ _ _ (by rw [h1]),
            List.getD_append_right _ _ _ _ (by rw [h3]),
            List.getD_append_right _ _ _ _ (by rw [h4])]
          simp [h1, h3, h4]

/-- C9: configured with epoch count `num_epochs`, the training loop performs
exactly that many epochs and terminates; each epoch appends one scalar loss
per training batch to the train-loss log (so its final length is
`num_epochs * |train batches|`), evaluates accuracy on both splits, appends
both to their logs, and prints one status line of the form
`Epoch {n} | T: {seconds} | Train A: {acc} | Test A: {acc}` whose
accuracies are exactly the ones logged for that epoch. -/
theorem run_mnist_training_loop_spec {γ σ : Type} (gradFn : Params → Mat → Mat → γ)
    (opt_upd : ℕ → γ → σ → σ) (get_params : σ → Params)
    (fmtT : ℕ → String) (fmtA : ℝ → String) (num_epochs : ℕ) (opt_state : σ)
    (train_loader test_loader : List Batch) :
    (run_mnist_training_loop gradFn opt_upd get_params fmtT fmtA num_epochs opt_state train_loader test_loader).printed.length = num_epochs
    ∧ (run_mnist_training_loop gradFn opt_upd get_params fmtT fmtA num_epochs opt_state train_loader test_loader).train_loss.length = num_epochs * train_loader.length
    ∧ ∀ i, i < num_epochs →
        (run_mnist_training_loop gradFn opt_upd get_params fmtT fmtA num_epochs opt_state train_loader test_loader).printed.getD i ""
          = status_line (i + 1) (fmtT i)
              (fmtA ((run_mnist_training_loop gradFn opt_upd get_params fmtT fmtA num_epochs opt_state train_loader test_loader).log_acc_train.getD (i + 1) 0))
              (fmtA ((run_mnist_training_loop gradFn opt_upd get_params fmtT fmtA num_epochs opt_state train_loader test_loader).log_acc_test.getD (i + 1) 0)) := by
  obtain ⟨h1, h2, _, _, _, _, h7⟩ := run_loop_invariant gradFn opt_upd get_params fmtT fmtA
    opt_state train_loader test_loader num_epochs
  exact ⟨h1, h2, h7⟩

/-- C10 (implicit): the loop additionally evaluates and logs both accuracies
once before the first epoch, on the freshly initialized parameters, so after
`num_epochs` epochs each accuracy log holds `num_epochs + 1` entries and its
first entry is the accuracy of the initial parameters. -/
theorem run_mnist_training_loop_initial_eval {γ σ : Type} (gradFn : Params → Mat → Mat → γ)
    (opt_upd : ℕ → γ → σ → σ) (get_params : σ → Params)
    (fmtT : ℕ → String) (fmtA : ℝ → String) (num_epochs : ℕ) (opt_state : σ)
    (train_loader test_loader : List Batch) :
    (run_mnist_training_loop gradFn opt_upd get_params fmtT fmtA num_epochs opt_state train_loader test_loader).log_acc_train.length = num_epochs + 1
    ∧ (run_mnist_training_loop gradFn opt_upd get_params fmtT fmtA num_epochs opt_state train_loader test_loader).log_acc_test.length = num_epochs + 1
    ∧ (run_mnist_training_loop gradFn opt_upd get_params fmtT fmtA num_epochs opt_state train_loader test_loader).log_acc_train.getD 0 0 = accuracy (get_params opt_state) train_loader
    ∧ (run_mnist_training_loop gradFn opt_upd get_params fmtT fmtA num_epochs opt_state train_loader test_loader).log_acc_test.getD 0 0 = accuracy (get_params opt_state) test_loader := by
  obtain ⟨_, _, h3, h4, h5, h6, _⟩ := run_loop_invariant gradFn opt_upd get_params fmtT fmtA
    opt_state train_loader test_loader num_epochs
  exact ⟨h3, h4, h5, h6⟩
